import Mathlib

/-!
Verification of the Terraform plan PR-commenter pipeline (`src/main.ts`).

The development shallowly embeds the core of `run`:
attribute mappings and their JavaScript-object semantics, the in-place
sensitive-field sanitization loops, the action classifier switch, the
diff post-processing regexes and heading wrap, the per-plan accumulator
(`PlanChanges`), and the comment-body assembly with its size check.
External collaborators (the `yaml.stringify` serializer and the
`diff.createPatch` line-diff primitive) are parameters of the pipeline,
matching the project's use of them as third-party libraries.
-/

namespace TerraPR

/-- A JSON attribute value as it appears after `JSON.parse`.  Primitive
values compare structurally under JavaScript strict equality; composite
values (objects/arrays) compare by reference, which the embedding models
with an abstract reference identifier. -/
inductive JSVal where
  | str : String → JSVal
  | num : Int → JSVal
  | bool : Bool → JSVal
  | null : JSVal
  | ref : Nat → JSVal
deriving DecidableEq

/-- An attribute mapping (a plain JavaScript object): keys in insertion
order, later operations follow JS object semantics. -/
abbrev Attrs := List (String × JSVal)

/-- Property read `m[k]`: the value at the first matching key, or
`none` for JavaScript `undefined` when the key is absent. -/
def getAttr (m : Attrs) (k : String) : Option JSVal :=
  (m.find? fun p => p.1 == k).map Prod.snd

/-- `delete m[k]`: removes the key (a no-op when absent). -/
def delAttr (m : Attrs) (k : String) : Attrs :=
  m.filter fun p => p.1 != k

/-- Assignment `m[k] = v`: overwrites in place when the key is present,
appends otherwise. -/
def setAttr (m : Attrs) (k : String) (v : JSVal) : Attrs :=
  if (m.find? fun p => p.1 == k).isSome then
    m.map fun p => if p.1 == k then (p.1, v) else p
  else
    m ++ [(k, v)]

/-- Placeholder written into `beforeChanges` for a changed sensitive key
(`main.ts` lines 123 and 140). -/
def OLD_SENSITIVE_VALUE : JSVal := .str "(OLD_SENSITIVE_VALUE)"

/-- Placeholder written into `afterChanges` for a changed sensitive key
(`main.ts` lines 126 and 143). -/
def NEW_SENSITIVE_VALUE : JSVal := .str "(NEW_SENSITIVE_VALUE)"

/-- Body of the sanitization loops (`main.ts` lines 115-128 and 132-145):
for one marked key, delete it from both sides when the two reads are
strictly equal (`undefined === undefined` included), otherwise mask the
value on each side where the key is present. -/
def sanitizeKey (ba : Attrs × Attrs) (k : String) : Attrs × Attrs :=
  if getAttr ba.1 k = getAttr ba.2 k then
    (delAttr ba.1 k, delAttr ba.2 k)
  else
    ((if (getAttr ba.1 k).isSome then setAttr ba.1 k OLD_SENSITIVE_VALUE else ba.1),
     (if (getAttr ba.2 k).isSome then setAttr ba.2 k NEW_SENSITIVE_VALUE else ba.2))

/-- One `for (const sensitiveParamKey in …)` loop over the keys of a
sensitivity-marker object. -/
def sanitizeLoop (ba : Attrs × Attrs) (keys : List String) : Attrs × Attrs :=
  keys.foldl sanitizeKey ba

/-- The full sanitization of `main.ts` lines 114-146: the loop over the
keys of `before_sensitive` followed by the loop over the keys of
`after_sensitive`. -/
def sanitizeSensitive (before after : Attrs)
    (beforeSensitiveKeys afterSensitiveKeys : List String) : Attrs × Attrs :=
  sanitizeLoop (sanitizeLoop (before, after) beforeSensitiveKeys) afterSensitiveKeys

/-- The net effect of the sanitization loop body on the pair of values
stored at the processed key. -/
def maskPair (p : Option JSVal × Option JSVal) : Option JSVal × Option JSVal :=
  if p.1 = p.2 then (none, none)
  else (p.1.map fun _ => OLD_SENSITIVE_VALUE, p.2.map fun _ => NEW_SENSITIVE_VALUE)

/-- The pair of values the two working mappings hold at a key. -/
def attrPair (ba : Attrs × Attrs) (k : String) : Option JSVal × Option JSVal :=
  (getAttr ba.1 k, getAttr ba.2 k)

/-- One entry of `PlanChanges.ResouceChangeBody` (`main.ts` lines 19-23);
the diff fragment is modelled as its list of lines, each line standing
for a `\n`-terminated piece of the fragment string. -/
structure ResourceChangeBody where
  Address : String
  ChangeDif : List String
  Action : String
deriving DecidableEq

/-- The per-plan accumulator (`main.ts` lines 10-17). -/
structure PlanChanges where
  CreateResourcesCount : Nat
  UpdateResourcesCount : Nat
  DestroyResourcesCount : Nat
  ReplaceResourcesCount : Nat
  ImportResourcesCount : Nat
  ResouceChangeBody : List ResourceChangeBody
deriving DecidableEq

/-- The zero-initialized accumulator (`main.ts` lines 61-68). -/
def initialPlanChanges : PlanChanges :=
  { CreateResourcesCount := 0
    UpdateResourcesCount := 0
    DestroyResourcesCount := 0
    ReplaceResourcesCount := 0
    ImportResourcesCount := 0
    ResouceChangeBody := [] }

/-- One well-formed resource change record of a plan (`§3` of the plan
schema): its address, the ordered raw action verbs, the optional
`before`/`after` attribute mappings (a JSON `null` or a missing field
both read back as `none`), the key sets of the two sensitivity-marker
mappings, and whether the change details carry an `importing` marker. -/
structure ResourceChange where
  address : String
  actions : List String
  before : Option Attrs
  after : Option Attrs
  beforeSensitiveKeys : List String
  afterSensitiveKeys : List String
  importing : Bool
deriving DecidableEq

/-- The action-resolution switch (`main.ts` lines 148-190, before the
`noChanges` early continue): from the previous accumulator, the raw
action list and the `importing` marker, produce the updated counters,
the `overallAction` string and the final `noChanges` flag.  An empty
action list reads `actions[0]` as `undefined`, which matches no case,
exactly like an unrecognized verb. -/
def resolveAction (pc : PlanChanges) (actions : List String) (importing : Bool) :
    PlanChanges × String × Bool :=
  if actions.head? = some "no-op" then
    if importing then
      ({ pc with ImportResourcesCount := pc.ImportResourcesCount + 1 }, "Import", false)
    else
      (pc, "", true)
  else if actions.head? = some "create" then
    ({ pc with CreateResourcesCount := pc.CreateResourcesCount + 1 }, "Create", false)
  else if actions.head? = some "delete" then
    if actions.contains "delete" && actions.contains "create" then
      ({ pc with
          CreateResourcesCount := pc.CreateResourcesCount + 1
          DestroyResourcesCount := pc.DestroyResourcesCount + 1
          ReplaceResourcesCount := pc.ReplaceResourcesCount + 1 }, "Replace", false)
    else
      ({ pc with DestroyResourcesCount := pc.DestroyResourcesCount + 1 }, "Destroy", false)
  else if actions.head? = some "update" then
    ({ pc with UpdateResourcesCount := pc.UpdateResourcesCount + 1 }, "Update", false)
  else
    (pc, "", true)

/-- The `createPatch` argument dispatch (`main.ts` lines 196-217): the
pair `(oldHeader, newHeader)` handed to the diff primitive for a given
`overallAction`. -/
def patchHeaders (overallAction : String) : Option String × Option String :=
  if overallAction = "Create" ∨ overallAction = "Update" ∨ overallAction = "Import" then
    (none, some overallAction)
  else
    (some overallAction, none)

/-- Whether a diff line survives the first clean-up regex
`/^(?![+-]).*\n?/gm` (`main.ts` line 221): only lines starting with
`+` or `-` are kept.  The prefix test is spelled on the character list
so that it evaluates by reduction. -/
def changeLineKept (l : String) : Bool :=
  match l.data with
  | c :: _ => c == '+' || c == '-'
  | [] => false

/-- Effect of one marker regex (`/^-\x7b\x7d\n?/gm` on line 224, and
likewise for `+\x7b\x7d` on line 225) on a single line: the anchored,
non-overlapping match removes one leading occurrence of the marker,
consuming the trailing newline as well when the marker was the whole
line (which deletes the line).  Prefix test and drop are spelled on
the character list so that they evaluate by reduction. -/
def stripMarkerLine (marker : String) (l : String) : Option String :=
  if l = marker then none
  else if marker.data.isPrefixOf l.data then some (String.mk (l.data.drop marker.length))
  else some l

/-- The three diff clean-up passes of `main.ts` lines 219-225, applied
in source order to the lines of the raw `createPatch` output. -/
def sanitizeDiffLines (lines : List String) : List String :=
  ((lines.filter changeLineKept).filterMap
      (stripMarkerLine "-\x7b\x7d")).filterMap
    (stripMarkerLine "+\x7b\x7d")

/-- The separator of the diff heading (`main.ts` line 230): a line of
67 equals signs, built here by replication. -/
def separatorLine : String := String.mk (List.replicate 67 '=')

/-- The heading wrap of `main.ts` lines 228-232: the template prepends a
blank line, a `Resource:` line and the separator, and appends a final
newline (a trailing empty line in the line model). -/
def wrapDiffFragment (resourceAddress : String) (body : List String) : List String :=
  "" :: ("Resource: " ++ resourceAddress) :: separatorLine :: (body ++ [""])

/-- The external line-diff primitive `diff.createPatch(fileName, oldStr,
newStr, oldHeader, newHeader)`, abstracted: it returns the patch text as
lines. -/
abbrev CreatePatch := String → String → String → Option String → Option String → List String

/-- The external `yaml.stringify` serializer, abstracted. -/
abbrev YamlStringify := Attrs → String

/-- The diff-rendering tail of the per-record loop (`main.ts` lines
192-232) for a record that was not dropped: sanitize the defaulted
`before`/`after` mappings, serialize both, call the external
`createPatch` with the headers the action dispatch selects, clean the
patch lines up and wrap them with the resource heading. -/
def renderedFragment (yamlStringify : YamlStringify) (createPatch : CreatePatch)
    (r : ResourceChange) (overallAction : String) : List String :=
  let ba := sanitizeSensitive (r.before.getD []) (r.after.getD [])
      r.beforeSensitiveKeys r.afterSensitiveKeys
  let headers := patchHeaders overallAction
  wrapDiffFragment r.address (sanitizeDiffLines
    (createPatch r.address (yamlStringify ba.1) (yamlStringify ba.2)
      headers.1 headers.2))

/-- The body of the per-record loop (`main.ts` lines 90-238) for one
well-formed record: default the four mappings, run the sanitization
loops, resolve the action (or `continue` when `noChanges` stays set),
render and clean the diff, and push the resolved change. -/
def processRecord (yamlStringify : YamlStringify) (createPatch : CreatePatch)
    (pc : PlanChanges) (r : ResourceChange) : PlanChanges :=
  let res := resolveAction pc r.actions r.importing
  if res.2.2 then res.1
  else
    { res.1 with
        ResouceChangeBody := res.1.ResouceChangeBody ++
          [{ Address := r.address,
             ChangeDif := renderedFragment yamlStringify createPatch r res.2.1,
             Action := res.2.1 }] }

/-- The per-record loop folded over a list of well-formed records. -/
def processRecords (yamlStringify : YamlStringify) (createPatch : CreatePatch)
    (pc : PlanChanges) (records : List ResourceChange) : PlanChanges :=
  records.foldl (processRecord yamlStringify createPatch) pc

/-- A raw entry of `resource_changes`: either a record whose dynamic
field accesses succeed, or a malformed one (missing `change` object or
missing `actions` array) whose evaluation throws a `TypeError`, caught
by the per-plan `try`/`catch` of `main.ts` lines 87 and 240-244. -/
inductive RawResourceChange where
  | malformed : RawResourceChange
  | wellFormed : ResourceChange → RawResourceChange
deriving DecidableEq

/-- The per-plan record loop with its surrounding `try`/`catch`
(`main.ts` lines 87-244): a malformed record aborts the plan with the
`setFailed` message, otherwise every record is folded into the
accumulator. -/
def processPlanAux (yamlStringify : YamlStringify) (createPatch : CreatePatch)
    (pc : PlanChanges) : List RawResourceChange → Except String PlanChanges
  | [] => .ok pc
  | .malformed :: _ => .error "TF plan is invalid"
  | .wellFormed r :: rest =>
      processPlanAux yamlStringify createPatch
        (processRecord yamlStringify createPatch pc r) rest

/-- Processing one plan's `resource_changes` from the zero accumulator. -/
def processPlan (yamlStringify : YamlStringify) (createPatch : CreatePatch)
    (records : List RawResourceChange) : Except String PlanChanges :=
  processPlanAux yamlStringify createPatch initialPlanChanges records

/-- Rejoining the line model of a diff fragment into its string: every
line is `\n`-terminated. -/
def joinLines (lines : List String) : String :=
  String.join (lines.map fun l => l ++ "\n")

/-- The fenced block appended for one resolved change in the section
loop (`main.ts` lines 273-306). -/
def diffBlock (changeDif : List String) : String :=
  "\n```diff" ++ joinLines changeDif ++ "```\n\n"

/-- One pass of the section loop of `main.ts` lines 273-306 restricted
to a single accumulator: the switch appends each change's fenced block
to exactly the accumulator named by its `Action`, so each of the five
section strings is this fold over the change list. -/
def sectionContent (action heading : String) (bodies : List ResourceChangeBody) : String :=
  bodies.foldl
    (fun acc b => if b.Action == action then acc ++ diffBlock b.ChangeDif else acc)
    heading

/-- `resourcesToCreateContent` (`main.ts` lines 251-254 and 281-285). -/
def resourcesToCreateContent (bodies : List ResourceChangeBody) : String :=
  sectionContent "Create" "\n#### Resources to create:\n\n" bodies

/-- `resourcesToDestroyContent` (`main.ts` lines 255-258 and 293-297). -/
def resourcesToDestroyContent (bodies : List ResourceChangeBody) : String :=
  sectionContent "Destroy" "\n#### Resources to destroy:\n\n" bodies

/-- `resourcesToUpdateContent` (`main.ts` lines 259-262 and 287-291). -/
def resourcesToUpdateContent (bodies : List ResourceChangeBody) : String :=
  sectionContent "Update" "\n#### Resources to update:\n\n" bodies

/-- `resourcesToReplaceContent` (`main.ts` lines 263-266 and 299-303). -/
def resourcesToReplaceContent (bodies : List ResourceChangeBody) : String :=
  sectionContent "Replace" "\n#### Resources to replace:\n\n" bodies

/-- `resourcesToImportContent` (`main.ts` lines 268-271 and 275-279). -/
def resourcesToImportContent (bodies : List ResourceChangeBody) : String :=
  sectionContent "Import" "\n#### Resources to import:\n\n" bodies

/-- Modelled from the spec: the fixed trailing marker string
`COMMENT_FOOTER` imported from `./constants`; its definition is not in
the provided sources.  The spec only requires a fixed marker appended to
every report and used to look previous reports up. -/
def COMMENT_FOOTER : String := "terra-pr-commenter-footer-marker"

/-- The badge line of the comment body (`main.ts` line 312). -/
def badgeLine (pc : PlanChanges) : String :=
  "![Create](https://img.shields.io/badge/Create-" ++
    toString pc.CreateResourcesCount ++ "-brightgreen) " ++
  "![Update](https://img.shields.io/badge/Update-" ++
    toString pc.UpdateResourcesCount ++ "-yellow) " ++
  "![Replace](https://img.shields.io/badge/Replace-" ++
    toString pc.ReplaceResourcesCount ++ "-orange) " ++
  "![Destroy](https://img.shields.io/badge/Destroy-" ++
    toString pc.DestroyResourcesCount ++ "-red) " ++
  "![Import](https://img.shields.io/badge/Import-" ++
    toString pc.ImportResourcesCount ++ "-blue)"

/-- The conditional Create section slot of the comment template
(`main.ts` line 318). -/
def createSectionSlot (pc : PlanChanges) : String :=
  if pc.CreateResourcesCount > pc.ReplaceResourcesCount then
    resourcesToCreateContent pc.ResouceChangeBody
  else ""

/-- The conditional Destroy section slot (`main.ts` line 319). -/
def destroySectionSlot (pc : PlanChanges) : String :=
  if pc.DestroyResourcesCount > pc.ReplaceResourcesCount then
    resourcesToDestroyContent pc.ResouceChangeBody
  else ""

/-- The conditional Update section slot (`main.ts` line 320). -/
def updateSectionSlot (pc : PlanChanges) : String :=
  if pc.UpdateResourcesCount > 0 then
    resourcesToUpdateContent pc.ResouceChangeBody
  else ""

/-- The conditional Replace section slot (`main.ts` line 321). -/
def replaceSectionSlot (pc : PlanChanges) : String :=
  if pc.ReplaceResourcesCount > 0 then
    resourcesToReplaceContent pc.ResouceChangeBody
  else ""

/-- The conditional Import section slot (`main.ts` line 322). -/
def importSectionSlot (pc : PlanChanges) : String :=
  if pc.ImportResourcesCount > 0 then
    resourcesToImportContent pc.ResouceChangeBody
  else ""

/-- The comment body template of `main.ts` lines 309-326. -/
def buildCommentBody (pc : PlanChanges) (resolvedCommentHeader : String)
    (expandComment : Bool) : String :=
  "\n<b>" ++ resolvedCommentHeader ++ "<b>\n\n" ++
  badgeLine pc ++ "\n" ++
  "<details" ++ (if expandComment then " open" else "") ++
  ">\n<summary>\n<b>Resource changes:</b>\n</summary>\n\n" ++
  createSectionSlot pc ++ "\n" ++
  destroySectionSlot pc ++ "\n" ++
  updateSectionSlot pc ++ "\n" ++
  replaceSectionSlot pc ++ "\n" ++
  importSectionSlot pc ++ "\n" ++
  "</details>\n\n" ++
  COMMENT_FOOTER ++ "\n"

/-- `MAX_GITHUB_COMMENT_BODY_SIZE` from `constants.ts`. -/
def MAX_GITHUB_COMMENT_BODY_SIZE : Nat := 65536

/-- The size check of `main.ts` lines 330-335: an oversize body fails
the run with the `setFailed` message naming the actual and the maximum
size. -/
def checkCommentBodySize (commentBody : String) : Except String String :=
  if commentBody.length > MAX_GITHUB_COMMENT_BODY_SIZE then
    .error ("Comment body size is too large for GitHub comment: " ++
      toString commentBody.length ++ " > " ++ toString MAX_GITHUB_COMMENT_BODY_SIZE)
  else
    .ok commentBody

/-- The plan-comment collection loop of `main.ts` lines 246-338 over
already-built accumulators: a plan with an empty `ResouceChangeBody` is
skipped (line 246-248), an oversize body aborts the whole run before
anything is posted (posting only happens after the loop, lines 344-350),
and otherwise the body is pushed onto `planComments`. -/
def collectPlanComments (expandComment : Bool) :
    List (PlanChanges × String) → Except String (List String)
  | [] => .ok []
  | (pc, header) :: rest =>
      if pc.ResouceChangeBody.length == 0 then
        collectPlanComments expandComment rest
      else
        match checkCommentBodySize (buildCommentBody pc header expandComment) with
        | .error e => .error e
        | .ok body => (collectPlanComments expandComment rest).map (body :: ·)

theorem getAttr_nil (k : String) : getAttr [] k = none := rfl

theorem getAttr_cons (a : String) (v : JSVal) (m : Attrs) (k : String) :
    getAttr ((a, v) :: m) k = if a = k then some v else getAttr m k := by
  by_cases h : a = k <;> simp [getAttr, List.find?_cons, h]

theorem delAttr_cons (a : String) (v : JSVal) (m : Attrs) (k : String) :
    delAttr ((a, v) :: m) k =
      if a = k then delAttr m k else (a, v) :: delAttr m k := by
  by_cases hak : a = k <;> simp [delAttr, List.filter_cons, hak]

theorem getAttr_delAttr (m : Attrs) (k k' : String) :
    getAttr (delAttr m k) k' = if k' = k then none else getAttr m k' := by
  induction m with
  | nil => simp [getAttr_nil, delAttr]
  | cons p m ih =>
    obtain ⟨a, v⟩ := p
    rw [delAttr_cons]
    by_cases hak : a = k
    · rw [if_pos hak, ih, getAttr_cons]
      by_cases hk : k' = k
      · simp [hk]
      · simp [hk, show ¬ a = k' from fun hh => hk (hh ▸ hak)]
    · rw [if_neg hak, getAttr_cons, ih, getAttr_cons]
      by_cases hk : k' = k
      · simp [hk, hak, show ¬ a = k' from fun hh => hak (hk ▸ hh)]
      · simp [hk]

theorem getAttr_map_set (m : Attrs) (k k' : String) (v : JSVal) :
    getAttr (m.map fun p => if p.1 == k then (p.1, v) else p) k' =
      if k' = k then (getAttr m k).map (fun _ => v) else getAttr m k' := by
  induction m with
  | nil => by_cases hk : k' = k <;> simp [getAttr_nil, hk]
  | cons p m ih =>
    obtain ⟨a, w⟩ := p
    rw [List.map_cons]
    by_cases hak : a = k
    · have hhead : (if ((a, w).1 == k) = true then ((a, w).1, v) else (a, w)) =
          (a, v) := by simp [hak]
      rw [hhead]
      simp only [getAttr_cons, ih]
      by_cases hk : k' = k
      · simp [hk, hak, hak.trans hk.symm]
      · simp [hk, show ¬ a = k' from fun hh => hk (hh ▸ hak)]
    · have hhead : (if ((a, w).1 == k) = true then ((a, w).1, v) else (a, w)) =
          (a, w) := by simp [hak]
      rw [hhead]
      simp only [getAttr_cons, ih]
      by_cases hk : k' = k
      · simp [hk, hak, show ¬ a = k' from fun hh => hak (hk ▸ hh)]
      · simp [hk]

theorem getAttr_append_single (m : Attrs) (k k' : String) (v : JSVal) :
    getAttr (m ++ [(k, v)]) k' =
      match getAttr m k' with
      | some w => some w
      | none => if k = k' then some v else none := by
  induction m with
  | nil => by_cases hk : k = k' <;> simp [getAttr_nil, getAttr_cons, hk]
  | cons p m ih =>
    obtain ⟨a, w⟩ := p
    rw [List.cons_append, getAttr_cons, getAttr_cons, ih]
    by_cases hak : a = k' <;> simp [hak]

theorem isSome_find?_of_getAttr (m : Attrs) (k : String) :
    ((m.find? fun p => p.1 == k).isSome) = (getAttr m k).isSome := by
  simp [getAttr]

theorem getAttr_setAttr_self (m : Attrs) (k : String) (v : JSVal)
    (h : (getAttr m k).isSome) : getAttr (setAttr m k v) k = some v := by
  rw [setAttr]
  rw [isSome_find?_of_getAttr, h, if_pos rfl, getAttr_map_set, if_pos rfl]
  obtain ⟨w, hw⟩ := Option.isSome_iff_exists.mp h
  simp [hw]

theorem getAttr_setAttr_ne (m : Attrs) (k k' : String) (v : JSVal)
    (h : k' ≠ k) : getAttr (setAttr m k v) k' = getAttr m k' := by
  rw [setAttr]
  by_cases hs : ((m.find? fun p => p.1 == k).isSome : Prop)
  · rw [if_pos hs, getAttr_map_set, if_neg h]
  · rw [if_neg hs, getAttr_append_single]
    cases hg : getAttr m k' with
    | some w => rfl
    | none => exact if_neg fun hh => h hh.symm

theorem attrPair_sanitizeKey_self (ba : Attrs × Attrs) (k : String) :
    attrPair (sanitizeKey ba k) k = maskPair (attrPair ba k) := by
  by_cases he : getAttr ba.1 k = getAttr ba.2 k
  · have h1 : sanitizeKey ba k = (delAttr ba.1 k, delAttr ba.2 k) := by
      rw [sanitizeKey, if_pos he]
    have h2 : maskPair (attrPair ba k) = (none, none) := by
      simp only [attrPair, maskPair]
      rw [if_pos he]
    rw [h1, h2, attrPair]
    simp [getAttr_delAttr]
  · have h1 : sanitizeKey ba k =
        ((if (getAttr ba.1 k).isSome then setAttr ba.1 k OLD_SENSITIVE_VALUE else ba.1),
         (if (getAttr ba.2 k).isSome then setAttr ba.2 k NEW_SENSITIVE_VALUE else ba.2)) := by
      rw [sanitizeKey, if_neg he]
    have h2 : maskPair (attrPair ba k) =
        ((getAttr ba.1 k).map fun _ => OLD_SENSITIVE_VALUE,
         (getAttr ba.2 k).map fun _ => NEW_SENSITIVE_VALUE) := by
      simp only [attrPair, maskPair]
      rw [if_neg he]
    rw [h1, h2, attrPair, Prod.mk.injEq]
    constructor
    · cases hb : getAttr ba.1 k with
      | none => simp [hb]
      | some w => simp [hb, getAttr_setAttr_self ba.1 k _ (by simp [hb])]
    · cases ha : getAttr ba.2 k with
      | none => simp [ha]
      | some w => simp [ha, getAttr_setAttr_self ba.2 k _ (by simp [ha])]

theorem attrPair_sanitizeKey_ne (ba : Attrs × Attrs) (k0 k : String)
    (h : k ≠ k0) : attrPair (sanitizeKey ba k0) k = attrPair ba k := by
  by_cases he : getAttr ba.1 k0 = getAttr ba.2 k0
  · have h1 : sanitizeKey ba k0 = (delAttr ba.1 k0, delAttr ba.2 k0) := by
      rw [sanitizeKey, if_pos he]
    rw [h1, attrPair, attrPair]
    simp [getAttr_delAttr, h]
  · have h1 : sanitizeKey ba k0 =
        ((if (getAttr ba.1 k0).isSome then setAttr ba.1 k0 OLD_SENSITIVE_VALUE else ba.1),
         (if (getAttr ba.2 k0).isSome then setAttr ba.2 k0 NEW_SENSITIVE_VALUE else ba.2)) := by
      rw [sanitizeKey, if_neg he]
    rw [h1, attrPair, attrPair, Prod.mk.injEq]
    constructor
    · by_cases hb : ((getAttr ba.1 k0).isSome = true) <;>
        simp [hb, getAttr_setAttr_ne ba.1 k0 k _ h]
    · by_cases ha : ((getAttr ba.2 k0).isSome = true) <;>
        simp [ha, getAttr_setAttr_ne ba.2 k0 k _ h]

theorem maskPair_idem (p : Option JSVal × Option JSVal) :
    maskPair (maskPair p) = maskPair p := by
  obtain ⟨b, a⟩ := p
  by_cases he : b = a
  · simp [maskPair, he]
  · have h1 : maskPair (b, a) =
        (b.map fun _ => OLD_SENSITIVE_VALUE, a.map fun _ => NEW_SENSITIVE_VALUE) := by
      simp only [maskPair]
      rw [if_neg he]
    rw [h1]
    cases b with
    | none =>
      cases a with
      | none => exact absurd rfl he
      | some w => simp [maskPair, OLD_SENSITIVE_VALUE, NEW_SENSITIVE_VALUE]
    | some w =>
      cases a with
      | none => simp [maskPair, OLD_SENSITIVE_VALUE, NEW_SENSITIVE_VALUE]
      | some w2 => simp [maskPair, OLD_SENSITIVE_VALUE, NEW_SENSITIVE_VALUE]

theorem attrPair_sanitizeLoop (ba : Attrs × Attrs) (keys : List String) (k : String) :
    attrPair (sanitizeLoop ba keys) k =
      if k ∈ keys then maskPair (attrPair ba k) else attrPair ba k := by
  induction keys generalizing ba with
  | nil => simp [sanitizeLoop]
  | cons k0 keys ih =>
    have hstep : sanitizeLoop ba (k0 :: keys) = sanitizeLoop (sanitizeKey ba k0) keys := rfl
    rw [hstep, ih]
    by_cases hk : k = k0
    · subst hk
      rw [attrPair_sanitizeKey_self]
      by_cases hmem : k ∈ keys <;> simp [hmem, maskPair_idem]
    · rw [attrPair_sanitizeKey_ne ba k0 k hk]
      by_cases hmem : k ∈ keys <;> simp [hmem, hk]

theorem attrPair_sanitizeSensitive (before after : Attrs)
    (bs as : List String) (k : String) (hk : k ∈ bs ∨ k ∈ as) :
    attrPair (sanitizeSensitive before after bs as) k =
      maskPair (attrPair (before, after) k) := by
  rw [sanitizeSensitive, attrPair_sanitizeLoop, attrPair_sanitizeLoop]
  rcases hk with hkb | hka
  · by_cases ha : k ∈ as <;> simp [hkb, ha, maskPair_idem]
  · by_cases hb : k ∈ bs <;> simp [hka, hb, maskPair_idem]

/-- C1: for every resource change record and every key marked in
`before_sensitive` or `after_sensitive`, after sanitization: if the
before-value equals the after-value (a missing value equal to another
missing value) the key is absent from both sanitized mappings;
otherwise the key, where present on a side, holds only the fixed
placeholder for that side (`(OLD_SENSITIVE_VALUE)` for before,
`(NEW_SENSITIVE_VALUE)` for after) and never the raw value.  The
sanitization is a total function, so a key absent from one or both
sides is handled without any error, mirroring that the JavaScript code
reads absent keys as `undefined` and never throws there. -/
theorem C1_sensitive_key_sanitization (before after : Attrs)
    (beforeSensitiveKeys afterSensitiveKeys : List String) (k : String)
    (hk : k ∈ beforeSensitiveKeys ∨ k ∈ afterSensitiveKeys) :
    (getAttr before k = getAttr after k →
      getAttr (sanitizeSensitive before after beforeSensitiveKeys afterSensitiveKeys).1 k =
        none ∧
      getAttr (sanitizeSensitive before after beforeSensitiveKeys afterSensitiveKeys).2 k =
        none) ∧
    (getAttr before k ≠ getAttr after k →
      getAttr (sanitizeSensitive before after beforeSensitiveKeys afterSensitiveKeys).1 k =
        (getAttr before k).map (fun _ => OLD_SENSITIVE_VALUE) ∧
      getAttr (sanitizeSensitive before after beforeSensitiveKeys afterSensitiveKeys).2 k =
        (getAttr after k).map (fun _ => NEW_SENSITIVE_VALUE)) := by
  have h := attrPair_sanitizeSensitive before after beforeSensitiveKeys afterSensitiveKeys k hk
  simp only [attrPair, maskPair] at h
  constructor
  · intro he
    rw [if_pos he, Prod.mk.injEq] at h
    exact h
  · intro he
    rw [if_neg he, Prod.mk.injEq] at h
    exact h

/-- Concrete instance of `C1_sensitive_key_sanitization`: one key in
`before_sensitive` whose value changes. -/
theorem C1_sensitive_key_sanitization_witness :
    ("password" ∈ ["password"] ∨ "password" ∈ ([] : List String)) ∧
    ((getAttr [("password", JSVal.str "hunter2")] "password" =
        getAttr [("password", JSVal.str "hunter3")] "password" →
      getAttr (sanitizeSensitive [("password", JSVal.str "hunter2")]
        [("password", JSVal.str "hunter3")] ["password"] []).1 "password" = none ∧
      getAttr (sanitizeSensitive [("password", JSVal.str "hunter2")]
        [("password", JSVal.str "hunter3")] ["password"] []).2 "password" = none) ∧
    (getAttr [("password", JSVal.str "hunter2")] "password" ≠
        getAttr [("password", JSVal.str "hunter3")] "password" →
      getAttr (sanitizeSensitive [("password", JSVal.str "hunter2")]
        [("password", JSVal.str "hunter3")] ["password"] []).1 "password" =
        (getAttr [("password", JSVal.str "hunter2")] "password").map
          (fun _ => OLD_SENSITIVE_VALUE) ∧
      getAttr (sanitizeSensitive [("password", JSVal.str "hunter2")]
        [("password", JSVal.str "hunter3")] ["password"] []).2 "password" =
        (getAttr [("password", JSVal.str "hunter3")] "password").map
          (fun _ => NEW_SENSITIVE_VALUE))) :=
  ⟨Or.inl (by decide),
    C1_sensitive_key_sanitization [("password", JSVal.str "hunter2")]
      [("password", JSVal.str "hunter3")] ["password"] [] "password"
      (Or.inl (by decide))⟩

theorem head?_delete_contains {actions : List String}
    (h : actions.head? = some "delete") : actions.contains "delete" = true := by
  cases actions with
  | nil => simp at h
  | cons a t =>
    simp only [List.head?_cons, Option.some.injEq] at h
    simp [List.contains_cons, h]

/-- C2 (amended): the Replace classification only fires on records whose
FIRST action is "delete" and whose actions also contain "create"; for
those, processing pushes one Resolved Change with action Replace and
increments the Create, Destroy and Replace counters each by exactly 1,
leaving Update and Import untouched. -/
theorem C2_replace_classification (y : YamlStringify) (cp : CreatePatch)
    (pc : PlanChanges) (r : ResourceChange)
    (h1 : r.actions.head? = some "delete")
    (h2 : r.actions.contains "create" = true) :
    processRecord y cp pc r =
      { pc with
          CreateResourcesCount := pc.CreateResourcesCount + 1
          DestroyResourcesCount := pc.DestroyResourcesCount + 1
          ReplaceResourcesCount := pc.ReplaceResourcesCount + 1
          ResouceChangeBody := pc.ResouceChangeBody ++
            [{ Address := r.address,
               ChangeDif := renderedFragment y cp r "Replace",
               Action := "Replace" }] } := by
  have hm1 : "delete" ∈ r.actions := by
    simpa using head?_delete_contains h1
  have hm2 : "create" ∈ r.actions := by
    simpa using h2
  have hres : resolveAction pc r.actions r.importing =
      ({ pc with
          CreateResourcesCount := pc.CreateResourcesCount + 1
          DestroyResourcesCount := pc.DestroyResourcesCount + 1
          ReplaceResourcesCount := pc.ReplaceResourcesCount + 1 }, "Replace", false) := by
    rw [resolveAction]
    simp [h1, hm1, hm2]
  simp only [processRecord, hres]
  rfl

/-- Concrete instance of `C2_replace_classification` at a
destroy-then-create record. -/
theorem C2_replace_classification_witness :
    (["delete", "create"].head? = some "delete") ∧
    (["delete", "create"].contains "create" = true) ∧
    processRecord (fun _ => "") (fun _ _ _ _ _ => []) initialPlanChanges
      { address := "aws_instance.web", actions := ["delete", "create"],
        before := none, after := none, beforeSensitiveKeys := [],
        afterSensitiveKeys := [], importing := false } =
      { initialPlanChanges with
          CreateResourcesCount := initialPlanChanges.CreateResourcesCount + 1
          DestroyResourcesCount := initialPlanChanges.DestroyResourcesCount + 1
          ReplaceResourcesCount := initialPlanChanges.ReplaceResourcesCount + 1
          ResouceChangeBody := initialPlanChanges.ResouceChangeBody ++
            [{ Address := "aws_instance.web",
               ChangeDif := renderedFragment (fun _ => "") (fun _ _ _ _ _ => [])
                 { address := "aws_instance.web", actions := ["delete", "create"],
                   before := none, after := none, beforeSensitiveKeys := [],
                   afterSensitiveKeys := [], importing := false } "Replace",
               Action := "Replace" }] } :=
  ⟨rfl, rfl,
    C2_replace_classification (fun _ => "") (fun _ _ _ _ _ => []) initialPlanChanges
      { address := "aws_instance.web", actions := ["delete", "create"],
        before := none, after := none, beforeSensitiveKeys := [],
        afterSensitiveKeys := [], importing := false } rfl rfl⟩

/-- C2 fails as stated: a record whose actions contain both "create"
and "delete" but start with "create" (Terraform's create-before-destroy
order) is classified Create, with only the Create counter incremented
and no Replace increment at all. -/
theorem C2_counterexample :
    (["create", "delete"].contains "create" = true) ∧
    (["create", "delete"].contains "delete" = true) ∧
    (processRecord (fun _ => "") (fun _ _ _ _ _ => []) initialPlanChanges
        { address := "aws_instance.web", actions := ["create", "delete"],
          before := none, after := none, beforeSensitiveKeys := [],
          afterSensitiveKeys := [], importing := false }).ReplaceResourcesCount = 0 ∧
    (processRecord (fun _ => "") (fun _ _ _ _ _ => []) initialPlanChanges
        { address := "aws_instance.web", actions := ["create", "delete"],
          before := none, after := none, beforeSensitiveKeys := [],
          afterSensitiveKeys := [], importing := false }).DestroyResourcesCount = 0 ∧
    (processRecord (fun _ => "") (fun _ _ _ _ _ => []) initialPlanChanges
        { address := "aws_instance.web", actions := ["create", "delete"],
          before := none, after := none, beforeSensitiveKeys := [],
          afterSensitiveKeys := [], importing := false }).CreateResourcesCount = 1 ∧
    ((processRecord (fun _ => "") (fun _ _ _ _ _ => []) initialPlanChanges
        { address := "aws_instance.web", actions := ["create", "delete"],
          before := none, after := none, beforeSensitiveKeys := [],
          afterSensitiveKeys := [], importing := false }).ResouceChangeBody.map
      ResourceChangeBody.Action) = ["Create"] := by
  refine ⟨rfl, rfl, rfl, rfl, rfl, rfl⟩

/-- C3: a record whose first action is "no-op" yields, when it carries
an importing marker, exactly one Resolved Change with action Import and
a single Import-counter increment; otherwise it is dropped without any
effect on the accumulator. -/
theorem C3_noop_import_classification (y : YamlStringify) (cp : CreatePatch)
    (pc : PlanChanges) (r : ResourceChange)
    (h : r.actions.head? = some "no-op") :
    (r.importing = true →
      processRecord y cp pc r =
        { pc with
            ImportResourcesCount := pc.ImportResourcesCount + 1
            ResouceChangeBody := pc.ResouceChangeBody ++
              [{ Address := r.address,
                 ChangeDif := renderedFragment y cp r "Import",
                 Action := "Import" }] }) ∧
    (r.importing = false → processRecord y cp pc r = pc) := by
  constructor
  · intro hi
    have hres : resolveAction pc r.actions r.importing =
        ({ pc with ImportResourcesCount := pc.ImportResourcesCount + 1 },
          "Import", false) := by
      rw [resolveAction]
      simp [h, hi]
    simp only [processRecord, hres]
    rfl
  · intro hi
    have hres : resolveAction pc r.actions r.importing = (pc, "", true) := by
      rw [resolveAction]
      simp [h, hi]
    simp only [processRecord, hres]
    rfl

/-- Concrete instance of `C3_noop_import_classification`: the same
no-op record with and without the importing marker. -/
theorem C3_noop_import_classification_witness :
    (["no-op"].head? = some "no-op") ∧
    ((true = true →
      processRecord (fun _ => "") (fun _ _ _ _ _ => []) initialPlanChanges
        { address := "aws_s3_bucket.b", actions := ["no-op"],
          before := none, after := none, beforeSensitiveKeys := [],
          afterSensitiveKeys := [], importing := true } =
        { initialPlanChanges with
            ImportResourcesCount := initialPlanChanges.ImportResourcesCount + 1
            ResouceChangeBody := initialPlanChanges.ResouceChangeBody ++
              [{ Address := "aws_s3_bucket.b",
                 ChangeDif := renderedFragment (fun _ => "") (fun _ _ _ _ _ => [])
                   { address := "aws_s3_bucket.b", actions := ["no-op"],
                     before := none, after := none, beforeSensitiveKeys := [],
                     afterSensitiveKeys := [], importing := true } "Import",
                 Action := "Import" }] }) ∧
    (true = false →
      processRecord (fun _ => "") (fun _ _ _ _ _ => []) initialPlanChanges
        { address := "aws_s3_bucket.b", actions := ["no-op"],
          before := none, after := none, beforeSensitiveKeys := [],
          afterSensitiveKeys := [], importing := true } = initialPlanChanges)) :=
  ⟨rfl,
    C3_noop_import_classification (fun _ => "") (fun _ _ _ _ _ => [])
      initialPlanChanges
      { address := "aws_s3_bucket.b", actions := ["no-op"],
        before := none, after := none, beforeSensitiveKeys := [],
        afterSensitiveKeys := [], importing := true } rfl⟩

/-- A well-formed record carrying the unclassifiable first verb "read"
(Terraform emits it for deferred data sources). -/
def readRecord : ResourceChange :=
  { address := "data.aws_ami.x", actions := ["read"], before := none,
    after := none, beforeSensitiveKeys := [], afterSensitiveKeys := [],
    importing := false }

/-- A well-formed record with first verb "create". -/
def createRecord : ResourceChange :=
  { address := "aws_instance.web2", actions := ["create"], before := none,
    after := none, beforeSensitiveKeys := [], afterSensitiveKeys := [],
    importing := false }

/-- C4 (amended): a record whose first action verb is none of "no-op",
"create", "delete", "update" is silently dropped: it contributes no
counter change and no Resolved Change, no error is raised, and
processing of the plan continues with the remaining records. -/
theorem C4_unknown_verb_dropped (y : YamlStringify) (cp : CreatePatch)
    (pc : PlanChanges) (r : ResourceChange) (rest : List RawResourceChange)
    (v : String) (h : r.actions.head? = some v)
    (h1 : v ≠ "no-op") (h2 : v ≠ "create") (h3 : v ≠ "delete") (h4 : v ≠ "update") :
    processPlanAux y cp pc (.wellFormed r :: rest) = processPlanAux y cp pc rest := by
  have hres : resolveAction pc r.actions r.importing = (pc, "", true) := by
    rw [resolveAction]
    simp [h, h1, h2, h3, h4]
  have hpr : processRecord y cp pc r = pc := by
    simp only [processRecord, hres]
    rfl
  rw [processPlanAux, hpr]

/-- Concrete instance of `C4_unknown_verb_dropped`: a "read" record
followed by a "create" record; the plan is processed to the same state
as without the "read" record. -/
theorem C4_unknown_verb_dropped_witness :
    (readRecord.actions.head? = some "read") ∧
    ("read" ≠ "no-op") ∧ ("read" ≠ "create") ∧ ("read" ≠ "delete") ∧
    ("read" ≠ "update") ∧
    processPlanAux (fun _ => "") (fun _ _ _ _ _ => []) initialPlanChanges
      [.wellFormed readRecord, .wellFormed createRecord] =
    processPlanAux (fun _ => "") (fun _ _ _ _ _ => []) initialPlanChanges
      [.wellFormed createRecord] :=
  ⟨rfl, by decide, by decide, by decide, by decide,
    C4_unknown_verb_dropped (fun _ => "") (fun _ _ _ _ _ => []) initialPlanChanges
      readRecord [.wellFormed createRecord]
      "read" rfl (by decide) (by decide) (by decide) (by decide)⟩

/-- C4 fails as stated: a plan containing one well-formed record with
the unclassifiable first verb "read" is processed to a successful `ok`
result with an untouched accumulator — no per-plan fatal error is
raised, the record is just silently dropped. -/
theorem C4_counterexample :
    processPlan (fun _ => "") (fun _ _ _ _ _ => []) [.wellFormed readRecord] =
      .ok initialPlanChanges ∧
    (processPlan (fun _ => "") (fun _ _ _ _ _ => [])
      [.wellFormed readRecord]).isOk = true := by
  exact ⟨rfl, rfl⟩

/-- C5 (amended): the patch labels are chosen by the resolved action:
for Create, Update and Import the "after" (new) label carries the action
name and the "before" (old) label is blank; for Destroy AND for Replace
the "before" label carries the action name and the "after" label is
blank — Replace is labeled the same way as Destroy, not as Create. -/
theorem C5_patch_header_dispatch :
    patchHeaders "Create" = (none, some "Create") ∧
    patchHeaders "Update" = (none, some "Update") ∧
    patchHeaders "Import" = (none, some "Import") ∧
    patchHeaders "Destroy" = (some "Destroy", none) ∧
    patchHeaders "Replace" = (some "Replace", none) := by
  refine ⟨?_, ?_, ?_, ?_, ?_⟩ <;> simp [patchHeaders]

/-- C5 fails as stated: for the Replace action the dispatch does NOT
use the additive (Create-style) labeling; the "before" label carries
the name instead. -/
theorem C5_counterexample :
    patchHeaders "Replace" ≠ (none, some "Replace") ∧
    patchHeaders "Replace" = (some "Replace", none) := by
  constructor
  · intro h
    simp [patchHeaders] at h
  · simp [patchHeaders]

/-- The C6 claim's own description of the clean-up, for comparison with
the implementation: keep exactly the addition/deletion lines that are
not a bare added-or-removed empty-mapping marker. -/
def sanitizeDiffLinesSpec (lines : List String) : List String :=
  lines.filter fun l => changeLineKept l && l != "+\x7b\x7d" && l != "-\x7b\x7d"

/-- C6 fails as stated: on a deletion line whose content starts with
the removed-empty-mapping marker but continues (here `-\x7b\x7dx`), the
anchored replace regexes strip just the marker prefix, leaving a line
`x` that is neither an addition nor a deletion marker, while the
claim's description would keep the line unchanged. -/
theorem C6_counterexample :
    sanitizeDiffLines ["-\x7b\x7dx"] = ["x"] ∧
    sanitizeDiffLinesSpec ["-\x7b\x7dx"] = ["-\x7b\x7dx"] ∧
    changeLineKept "x" = false ∧
    sanitizeDiffLines ["-\x7b\x7dx"] ≠ sanitizeDiffLinesSpec ["-\x7b\x7dx"] := by
  refine ⟨by decide, by decide, by decide, by decide⟩

/-- C6 (amended): the post-processing first removes every line that
does not start with `+` or `-`; it then removes one leading `-\x7b\x7d`
from each remaining line that starts with it — deleting the line when
that marker is its entire content — and then does the same for
`+\x7b\x7d`; finally it prepends a blank line, a heading line carrying
the resource address and a separator line, and appends a trailing blank
line around the filtered body. -/
theorem C6_diff_postprocessing (resourceAddress : String) (lines : List String) :
    wrapDiffFragment resourceAddress (sanitizeDiffLines lines) =
      "" :: ("Resource: " ++ resourceAddress) :: separatorLine ::
        (sanitizeDiffLines lines ++ [""]) ∧
    (∀ l, l ∈ sanitizeDiffLines lines ↔
      ∃ l0, l0 ∈ lines ∧ changeLineKept l0 = true ∧
        (stripMarkerLine "-\x7b\x7d" l0).bind (stripMarkerLine "+\x7b\x7d") = some l) := by
  refine ⟨rfl, fun l => ?_⟩
  simp only [sanitizeDiffLines, List.mem_filterMap, List.mem_filter]
  constructor
  · rintro ⟨l1, ⟨l0, ⟨hl0, hkeep⟩, hs1⟩, hs2⟩
    exact ⟨l0, hl0, hkeep, by rw [hs1]; simpa using hs2⟩
  · rintro ⟨l0, hl0, hkeep, hbind⟩
    cases hs1 : stripMarkerLine "-\x7b\x7d" l0 with
    | none => rw [hs1] at hbind; simp at hbind
    | some l1 =>
      rw [hs1] at hbind
      exact ⟨l1, ⟨l0, ⟨hl0, hkeep⟩, hs1⟩, by simpa using hbind⟩

theorem string_length_eq_zero_iff (s : String) : s.length = 0 ↔ s = "" := by
  constructor
  · intro h
    cases s with
    | mk d =>
      cases d with
      | nil => rfl
      | cons c t => simp [String.length] at h
  · intro h
    subst h
    rfl

theorem le_length_buildCommentBody (pc : PlanChanges) (header : String) (e : Bool) :
    header.length ≤ (buildCommentBody pc header e).length := by
  simp only [buildCommentBody, String.length_append]
  omega

/-- A header string longer than the GitHub comment size bound. -/
def hugeHeader : String := String.mk (List.replicate 70000 'h')

theorem hugeHeader_length : hugeHeader.length = 70000 := by
  show (List.replicate 70000 'h').length = 70000
  exact List.length_replicate 70000 'h'

/-- A one-change accumulator used to exercise the size check. -/
def pcOversize : PlanChanges :=
  { CreateResourcesCount := 1, UpdateResourcesCount := 0,
    DestroyResourcesCount := 0, ReplaceResourcesCount := 0,
    ImportResourcesCount := 0,
    ResouceChangeBody := [{ Address := "aws_instance.web", ChangeDif := [],
                            Action := "Create" }] }

/-- C7: a comment body exceeding `MAX_GITHUB_COMMENT_BODY_SIZE` makes
the run fail with the size-overflow error naming the actual and the
maximum size, and no report at all is emitted (the loop aborts before
anything is posted). -/
theorem C7_size_overflow (pc : PlanChanges) (header : String) (expand : Bool)
    (rest : List (PlanChanges × String))
    (h1 : pc.ResouceChangeBody ≠ [])
    (h2 : (buildCommentBody pc header expand).length > MAX_GITHUB_COMMENT_BODY_SIZE) :
    collectPlanComments expand ((pc, header) :: rest) =
      .error ("Comment body size is too large for GitHub comment: " ++
        toString (buildCommentBody pc header expand).length ++ " > " ++
        toString MAX_GITHUB_COMMENT_BODY_SIZE) := by
  have hne : (pc.ResouceChangeBody.length == 0) = false := by
    simp [List.length_eq_zero, h1]
  have hcons : collectPlanComments expand ((pc, header) :: rest) =
      if pc.ResouceChangeBody.length == 0 then collectPlanComments expand rest
      else
        match checkCommentBodySize (buildCommentBody pc header expand) with
        | .error e => .error e
        | .ok body => (collectPlanComments expand rest).map (body :: ·) := rfl
  have hchk : checkCommentBodySize (buildCommentBody pc header expand) =
      .error ("Comment body size is too large for GitHub comment: " ++
        toString (buildCommentBody pc header expand).length ++ " > " ++
        toString MAX_GITHUB_COMMENT_BODY_SIZE) := by
    rw [checkCommentBodySize, if_pos h2]
  rw [hcons, if_neg (by simp [hne]), hchk]

/-- Concrete instance of `C7_size_overflow`: a 70000-character heading
pushes the body over the 65536 bound. -/
theorem C7_size_overflow_witness :
    pcOversize.ResouceChangeBody ≠ [] ∧
    (buildCommentBody pcOversize hugeHeader true).length >
      MAX_GITHUB_COMMENT_BODY_SIZE ∧
    collectPlanComments true [(pcOversize, hugeHeader)] =
      .error ("Comment body size is too large for GitHub comment: " ++
        toString (buildCommentBody pcOversize hugeHeader true).length ++ " > " ++
        toString MAX_GITHUB_COMMENT_BODY_SIZE) := by
  have h1 : pcOversize.ResouceChangeBody ≠ [] := by simp [pcOversize]
  have h2 : (buildCommentBody pcOversize hugeHeader true).length >
      MAX_GITHUB_COMMENT_BODY_SIZE := by
    have hle := le_length_buildCommentBody pcOversize hugeHeader true
    rw [hugeHeader_length] at hle
    have hm : MAX_GITHUB_COMMENT_BODY_SIZE < 70000 := by
      norm_num [MAX_GITHUB_COMMENT_BODY_SIZE]
    omega
  exact ⟨h1, h2, C7_size_overflow pcOversize hugeHeader true [] h1 h2⟩

theorem length_le_sectionContent (action heading : String)
    (bodies : List ResourceChangeBody) :
    heading.length ≤ (sectionContent action heading bodies).length := by
  simp only [sectionContent]
  induction bodies generalizing heading with
  | nil => simp
  | cons b bs ih =>
    rw [List.foldl_cons]
    refine le_trans ?_ (ih _)
    by_cases hb : (b.Action == action) = true <;>
      simp [hb, String.length_append]

theorem sectionContent_ne_empty (action heading : String)
    (bodies : List ResourceChangeBody) (h : heading ≠ "") :
    sectionContent action heading bodies ≠ "" := by
  intro hemp
  have hlen := length_le_sectionContent action heading bodies
  rw [hemp] at hlen
  exact h ((string_length_eq_zero_iff heading).mp (Nat.le_zero.mp hlen))

theorem ite_ne_empty_iff (c : Prop) [Decidable c] (content : String)
    (h : content ≠ "") : (if c then content else "") ≠ "" ↔ c := by
  by_cases hc : c <;> simp [hc, h]

/-- C8: in the assembled comment body, the Create section slot is
non-empty iff the Create counter strictly exceeds the Replace counter,
the Destroy slot iff the Destroy counter strictly exceeds the Replace
counter, and the Update, Replace and Import slots iff their counters
are positive — the suppression compares counts only, never membership. -/
theorem C8_section_emission (pc : PlanChanges) :
    (createSectionSlot pc ≠ "" ↔
      pc.CreateResourcesCount > pc.ReplaceResourcesCount) ∧
    (destroySectionSlot pc ≠ "" ↔
      pc.DestroyResourcesCount > pc.ReplaceResourcesCount) ∧
    (updateSectionSlot pc ≠ "" ↔ pc.UpdateResourcesCount > 0) ∧
    (replaceSectionSlot pc ≠ "" ↔ pc.ReplaceResourcesCount > 0) ∧
    (importSectionSlot pc ≠ "" ↔ pc.ImportResourcesCount > 0) := by
  refine ⟨?_, ?_, ?_, ?_, ?_⟩
  · exact ite_ne_empty_iff _ _
      (sectionContent_ne_empty "Create" "\n#### Resources to create:\n\n"
        pc.ResouceChangeBody (by decide))
  · exact ite_ne_empty_iff _ _
      (sectionContent_ne_empty "Destroy" "\n#### Resources to destroy:\n\n"
        pc.ResouceChangeBody (by decide))
  · exact ite_ne_empty_iff _ _
      (sectionContent_ne_empty "Update" "\n#### Resources to update:\n\n"
        pc.ResouceChangeBody (by decide))
  · exact ite_ne_empty_iff _ _
      (sectionContent_ne_empty "Replace" "\n#### Resources to replace:\n\n"
        pc.ResouceChangeBody (by decide))
  · exact ite_ne_empty_iff _ _
      (sectionContent_ne_empty "Import" "\n#### Resources to import:\n\n"
        pc.ResouceChangeBody (by decide))

theorem processRecord_noop_drop (y : YamlStringify) (cp : CreatePatch)
    (pc : PlanChanges) (r : ResourceChange)
    (h : r.actions.head? = some "no-op") (hi : r.importing = false) :
    processRecord y cp pc r = pc := by
  have hres : resolveAction pc r.actions r.importing = (pc, "", true) := by
    rw [resolveAction]
    simp [h, hi]
  simp only [processRecord, hres]
  rfl

/-- C9: a plan whose processing yields zero Resolved Changes is skipped
by the comment loop (it contributes no report), and a plan whose
records are all true no-ops (first action "no-op", no importing marker)
does yield the untouched zero accumulator. -/
theorem C9_empty_plan_no_report (pc : PlanChanges) (header : String) (expand : Bool)
    (rest : List (PlanChanges × String))
    (h : pc.ResouceChangeBody = []) :
    (collectPlanComments expand ((pc, header) :: rest) =
      collectPlanComments expand rest) ∧
    ∀ (y : YamlStringify) (cp : CreatePatch) (records : List ResourceChange),
      (∀ r ∈ records, r.actions.head? = some "no-op" ∧ r.importing = false) →
      processRecords y cp initialPlanChanges records = initialPlanChanges := by
  constructor
  · have hz : (pc.ResouceChangeBody.length == 0) = true := by simp [h]
    simp only [collectPlanComments, hz, if_true]
  · intro y cp records
    induction records with
    | nil => intro _; rfl
    | cons r rs ih =>
      intro hall
      have hr := hall r (by simp)
      have hstep : processRecord y cp initialPlanChanges r = initialPlanChanges :=
        processRecord_noop_drop y cp initialPlanChanges r hr.1 hr.2
      calc processRecords y cp initialPlanChanges (r :: rs)
          = processRecords y cp (processRecord y cp initialPlanChanges r) rs := rfl
        _ = processRecords y cp initialPlanChanges rs := by rw [hstep]
        _ = initialPlanChanges := ih fun r' hr' => hall r' (by simp [hr'])

/-- Concrete instance of `C9_empty_plan_no_report`: the zero accumulator
has no Resolved Changes, so its plan is skipped. -/
theorem C9_empty_plan_no_report_witness :
    initialPlanChanges.ResouceChangeBody = [] ∧
    collectPlanComments true [(initialPlanChanges, "Terraform Plan")] =
      collectPlanComments true [] :=
  ⟨rfl,
    (C9_empty_plan_no_report initialPlanChanges "Terraform Plan" true [] rfl).1⟩

/-- Pointwise order on the five counters of the accumulator. -/
def countersLe (p q : PlanChanges) : Prop :=
  p.CreateResourcesCount ≤ q.CreateResourcesCount ∧
  p.UpdateResourcesCount ≤ q.UpdateResourcesCount ∧
  p.DestroyResourcesCount ≤ q.DestroyResourcesCount ∧
  p.ReplaceResourcesCount ≤ q.ReplaceResourcesCount ∧
  p.ImportResourcesCount ≤ q.ImportResourcesCount

/-- The accumulator invariant: the collected Resolved Changes balance
the counters (`len + Replace = Create + Update + Destroy + Import`),
and Replace never exceeds Create or Destroy. -/
def planChangesInvariant (pc : PlanChanges) : Prop :=
  pc.ResouceChangeBody.length + pc.ReplaceResourcesCount =
    pc.CreateResourcesCount + pc.UpdateResourcesCount +
      pc.DestroyResourcesCount + pc.ImportResourcesCount ∧
  pc.ReplaceResourcesCount ≤ pc.CreateResourcesCount ∧
  pc.ReplaceResourcesCount ≤ pc.DestroyResourcesCount

theorem countersLe_trans {a b c : PlanChanges}
    (h1 : countersLe a b) (h2 : countersLe b c) : countersLe a c := by
  simp only [countersLe] at *
  omega

theorem processRecord_step (y : YamlStringify) (cp : CreatePatch)
    (pc : PlanChanges) (r : ResourceChange) :
    countersLe pc (processRecord y cp pc r) ∧
    (planChangesInvariant pc → planChangesInvariant (processRecord y cp pc r)) := by
  simp only [processRecord, resolveAction]
  split_ifs <;>
    simp_all [countersLe, planChangesInvariant, List.length_append] <;> omega

theorem processRecords_step_all (y : YamlStringify) (cp : CreatePatch)
    (pc : PlanChanges) (rs : List ResourceChange) :
    countersLe pc (processRecords y cp pc rs) ∧
    (planChangesInvariant pc → planChangesInvariant (processRecords y cp pc rs)) := by
  induction rs generalizing pc with
  | nil =>
    exact ⟨by simp [countersLe, processRecords], fun h => h⟩
  | cons r rs ih =>
    have hstep := processRecord_step y cp pc r
    have hih := ih (processRecord y cp pc r)
    have hcons : processRecords y cp pc (r :: rs) =
        processRecords y cp (processRecord y cp pc r) rs := rfl
    rw [hcons]
    exact ⟨countersLe_trans hstep.1 hih.1, fun h => hih.2 (hstep.2 h)⟩

/-- C10: after processing any prefix of a plan's records from the zero
accumulator, the number of collected Resolved Changes equals
`Create + Update + Destroy + Import − Replace` (equivalently
`len + Replace = Create + Update + Destroy + Import`), `Replace` is at
most each of `Create` and `Destroy`, and every counter is non-decreasing
from a shorter prefix to a longer one. -/
theorem C10_accumulator_invariant (y : YamlStringify) (cp : CreatePatch)
    (records : List ResourceChange) (n m : Nat) (h : n ≤ m) :
    planChangesInvariant (processRecords y cp initialPlanChanges (records.take n)) ∧
    (processRecords y cp initialPlanChanges (records.take n)).ResouceChangeBody.length =
      ((processRecords y cp initialPlanChanges (records.take n)).CreateResourcesCount +
       (processRecords y cp initialPlanChanges (records.take n)).UpdateResourcesCount +
       (processRecords y cp initialPlanChanges (records.take n)).DestroyResourcesCount +
       (processRecords y cp initialPlanChanges (records.take n)).ImportResourcesCount) -
      (processRecords y cp initialPlanChanges (records.take n)).ReplaceResourcesCount ∧
    countersLe (processRecords y cp initialPlanChanges (records.take n))
      (processRecords y cp initialPlanChanges (records.take m)) := by
  have hinit : planChangesInvariant initialPlanChanges :=
    ⟨rfl, Nat.le_refl 0, Nat.le_refl 0⟩
  have hinv := (processRecords_step_all y cp initialPlanChanges (records.take n)).2 hinit
  refine ⟨hinv, ?_, ?_⟩
  · have hcopy := hinv
    simp only [planChangesInvariant] at hcopy
    omega
  · have hsplit : records.take m = records.take n ++ (records.take m).drop n := by
      conv_lhs => rw [← List.take_append_drop n (records.take m)]
      rw [List.take_take, Nat.min_eq_left h]
    rw [hsplit]
    have happ : processRecords y cp initialPlanChanges
        (records.take n ++ (records.take m).drop n) =
        processRecords y cp (processRecords y cp initialPlanChanges (records.take n))
          ((records.take m).drop n) := by
      simp [processRecords, List.foldl_append]
    rw [happ]
    exact (processRecords_step_all y cp _ _).1

/-- Concrete instance of `C10_accumulator_invariant` on a one-record
plan at prefixes 0 and 1. -/
theorem C10_accumulator_invariant_witness :
    0 ≤ 1 ∧
    planChangesInvariant (processRecords (fun _ => "") (fun _ _ _ _ _ => [])
      initialPlanChanges ([createRecord].take 0)) :=
  ⟨by decide,
    (C10_accumulator_invariant (fun _ => "") (fun _ _ _ _ _ => [])
      [createRecord] 0 1 (by decide)).1⟩

end TerraPR
